import Mathlib

/-!
Shallow embedding of the records-query construction layer and the SCIM
bulk-operation executor of the `gristapi` Go package (gristapi.go).

Modelling conventions:
* Go `interface{}` values that flow into `encoding/json` are modelled by the
  inductive `GoValue`; the constructor `GoValue.unsupported` stands for the
  Go values (channels, functions, NaN floats, ...) on which `json.Marshal`
  fails.  JSON numbers are restricted to integers, which covers every value
  the claims exercise.
* Go maps `map[string]T` are modelled as association lists in insertion
  order; the spec explicitly allows arbitrary iteration order for query
  parameters, so a fixed order is one admissible refinement.  Go's JSON
  encoder sorts map keys; the association-list order stands in for it.
* `encoding/json` marshalling and unmarshalling are standard-library code,
  not repository code; they are modelled by `jsonMarshal`/`jsonUnmarshal`
  below (fuel-based recursion so that all functions reduce in the kernel).
  Go's case-insensitive fallback for JSON field names is not modelled; all
  concrete inputs use exact field names.
* The HTTP transport (`httpRequest` and its `httpGet`/`httpPost`/... wrappers)
  is a parameter `T : Transport` mapping (action, request path, data) to
  (response body, status code).  Every embedded operation additionally
  returns the ordered list of transport calls it performed, so that
  "no network call is made" is a statement about that list.
-/

/-- A JSON-representable Go `interface\x7b\x7d` value, plus `unsupported` for
values on which `json.Marshal` errors out. -/
inductive GoValue where
  | null : GoValue
  | bool (b : Bool) : GoValue
  | num (n : Int) : GoValue
  | str (s : String) : GoValue
  | arr (xs : List GoValue) : GoValue
  | obj (fields : List (String × GoValue)) : GoValue
  | unsupported (desc : String) : GoValue
deriving Repr

/-- Escape one character for a JSON string literal (the cases Go's encoder
produces for the characters our model can contain). -/
def escapeJsonChar (c : Char) : String :=
  if c = '"' then "\\\""
  else if c = '\\' then "\\\\"
  else if c = '\n' then "\\n"
  else if c = '\t' then "\\t"
  else if c = '\r' then "\\r"
  else String.singleton c

/-- Escape a string for inclusion in JSON output. -/
def escapeJsonString (s : String) : String :=
  String.join (s.data.map escapeJsonChar)

/-- Model of Go `json.Marshal`: returns `none` exactly when the value
contains an `unsupported` leaf. -/
def jsonMarshal : GoValue → Option String
  | GoValue.null => some "null"
  | GoValue.bool b => some (if b then "true" else "false")
  | GoValue.num n => some (toString n)
  | GoValue.str s => some ("\"" ++ escapeJsonString s ++ "\"")
  | GoValue.arr xs =>
      (marshalList xs).map (fun parts => "[" ++ String.intercalate "," parts ++ "]")
  | GoValue.obj kvs =>
      (marshalObj kvs).map (fun parts => "\x7b" ++ String.intercalate "," parts ++ "\x7d")
  | GoValue.unsupported _ => none
where
  marshalList : List GoValue → Option (List String)
    | [] => some []
    | x :: xs =>
        match jsonMarshal x, marshalList xs with
        | some s, some rest => some (s :: rest)
        | _, _ => none
  marshalObj : List (String × GoValue) → Option (List String)
    | [] => some []
    | (k, v) :: kvs =>
        match jsonMarshal v, marshalObj kvs with
        | some s, some rest => some (("\"" ++ escapeJsonString k ++ "\":" ++ s) :: rest)
        | _, _ => none

/-- Skip JSON whitespace. -/
def skipWs : List Char → List Char
  | c :: cs => if c = ' ' ∨ c = '\n' ∨ c = '\t' ∨ c = '\r' then skipWs cs else c :: cs
  | [] => []

/-- Parse the remainder of a JSON string literal (the opening quote already
consumed), handling the simple escapes; returns content and rest. -/
def parseStrChars : List Char → Option (List Char × List Char)
  | [] => none
  | '"' :: cs => some ([], cs)
  | '\\' :: cs =>
      match cs with
      | [] => none
      | e :: cs2 =>
          let c := if e = 'n' then '\n' else if e = 't' then '\t'
                   else if e = 'r' then '\r' else e
          match parseStrChars cs2 with
          | some (s, rest) => some (c :: s, rest)
          | none => none
  | c :: cs =>
      match parseStrChars cs with
      | some (s, rest) => some (c :: s, rest)
      | none => none

/-- Accumulate the value of leading decimal digits. -/
def leadingDigitsVal : List Char → Nat → Nat × List Char
  | c :: cs, acc =>
      if c.isDigit then leadingDigitsVal cs (acc * 10 + (c.toNat - 48)) else (acc, c :: cs)
  | [], acc => (acc, [])

/-- Whether a character list starts with a decimal digit. -/
def startsWithDigit : List Char → Bool
  | c :: _ => c.isDigit
  | [] => false

/-- Parse an integer JSON number (optional minus sign followed by digits). -/
def parseIntNum : List Char → Option (Int × List Char)
  | '-' :: cs =>
      if startsWithDigit cs then
        let (n, rest) := leadingDigitsVal cs 0
        some (-(n : Int), rest)
      else none
  | cs =>
      if startsWithDigit cs then
        let (n, rest) := leadingDigitsVal cs 0
        some ((n : Int), rest)
      else none

/-- Fuel-based recursive-descent JSON parser producing a `GoValue` and the
unconsumed input.  The tail of an array or object is parsed by re-inserting
the opening bracket in front of the remaining items, so a single
structurally-recursive (hence kernel-reducible) function suffices. -/
def parseJsonVal : Nat → List Char → Option (GoValue × List Char)
  | 0, _ => none
  | fuel + 1, input =>
    match skipWs input with
    | [] => none
    | '"' :: rest =>
        match parseStrChars rest with
        | some (s, r) => some (GoValue.str (String.mk s), r)
        | none => none
    | 't' :: 'r' :: 'u' :: 'e' :: rest => some (GoValue.bool true, rest)
    | 'f' :: 'a' :: 'l' :: 's' :: 'e' :: rest => some (GoValue.bool false, rest)
    | 'n' :: 'u' :: 'l' :: 'l' :: rest => some (GoValue.null, rest)
    | '[' :: rest =>
        (match skipWs rest with
         | ']' :: r => some (GoValue.arr [], r)
         | items =>
             match parseJsonVal fuel items with
             | none => none
             | some (v, afterItem) =>
                 match skipWs afterItem with
                 | ']' :: r => some (GoValue.arr [v], r)
                 | ',' :: r =>
                     match parseJsonVal fuel ('[' :: r) with
                     | some (GoValue.arr vs, r2) => some (GoValue.arr (v :: vs), r2)
                     | _ => none
                 | _ => none)
    | '{' :: rest =>
        (match skipWs rest with
         | '}' :: r => some (GoValue.obj [], r)
         | items =>
             match items with
             | '"' :: keyRest =>
                 match parseStrChars keyRest with
                 | none => none
                 | some (key, afterKey) =>
                     match skipWs afterKey with
                     | ':' :: afterColon =>
                         match parseJsonVal fuel afterColon with
                         | none => none
                         | some (v, afterVal) =>
                             match skipWs afterVal with
                             | '}' :: r => some (GoValue.obj [(String.mk key, v)], r)
                             | ',' :: r =>
                                 match parseJsonVal fuel ('{' :: r) with
                                 | some (GoValue.obj kvs, r2) =>
                                     some (GoValue.obj ((String.mk key, v) :: kvs), r2)
                                 | _ => none
                             | _ => none
                     | _ => none
             | _ => none)
    | cs =>
        match parseIntNum cs with
        | some (n, rest) => some (GoValue.num n, rest)
        | none => none

/-- Model of Go `json.Unmarshal` into an `interface\x7b\x7d`: the whole input
must be one JSON value followed only by whitespace. -/
def jsonUnmarshal (s : String) : Option GoValue :=
  match parseJsonVal (2 * s.length + 4) s.data with
  | some (v, rest) => if skipWs rest = [] then some v else none
  | none => none

/-- Model of `fmt.Sscanf(s, "%d", &statusCode)` with `statusCode`
initialized to 0: reads an optional sign and leading digits after optional
whitespace; on no match the variable keeps its zero value. -/
def sscanfInt (s : String) : Int :=
  match s.data.dropWhile (fun c => c = ' ' ∨ c = '\t' ∨ c = '\n') with
  | '-' :: cs => if startsWithDigit cs then -((leadingDigitsVal cs 0).1 : Int) else 0
  | '+' :: cs => if startsWithDigit cs then ((leadingDigitsVal cs 0).1 : Int) else 0
  | cs => if startsWithDigit cs then ((leadingDigitsVal cs 0).1 : Int) else 0

/-- One HTTP round trip as issued by `httpRequest`: the HTTP action, the
request path relative to the API base URL, and the request body. -/
structure HttpCall where
  action : String
  request : String
  data : String
deriving Repr, DecidableEq

/-- The HTTP substrate (`httpRequest` and its method wrappers): maps
(action, relative request path, body) to (response body, status code).
Network-level failures are encoded as synthetic negative status codes
(`httpRequest` returns -10), never as exceptions. -/
def Transport : Type := String → String → String → String × Int

/-- A single record with its fields (Go struct `Record`). -/
structure Record where
  Id : Int
  Fields : List (String × GoValue)
deriving Repr

/-- A list of records returned by GET /records (Go struct `RecordsList`). -/
structure RecordsList where
  Records : List Record
deriving Repr

/-- A record for upsert operations (Go struct `RecordWithRequire`). -/
structure RecordWithRequire where
  Require : List (String × GoValue)
  Fields : List (String × GoValue)
deriving Repr

/-- One id-only entry of an add-records response (Go anonymous struct
inside `RecordsWithoutFields`). -/
structure RecordIdOnly where
  Id : Int
deriving Repr, DecidableEq

/-- The response from adding records, ids only (Go struct
`RecordsWithoutFields`). -/
structure RecordsWithoutFields where
  Records : List RecordIdOnly
deriving Repr, DecidableEq

/-- Query parameters for fetching records (Go struct `GetRecordsOptions`).
The Go `Filter` field is a possibly-nil `map[string][]interface\x7b\x7d`,
modelled as an optional association list. -/
structure GetRecordsOptions where
  Filter : Option (List (String × List GoValue))
  Sort' : String
  Limit : Int
  Hidden : Bool

/-- Query parameters for adding records (Go struct `AddRecordsOptions`). -/
structure AddRecordsOptions where
  NoParse : Bool

/-- Query parameters for updating records (Go struct
`UpdateRecordsOptions`). -/
structure UpdateRecordsOptions where
  NoParse : Bool

/-- Query parameters for upserting records (Go struct
`UpsertRecordsOptions`). -/
structure UpsertRecordsOptions where
  OnMany : String
  NoAdd : Bool
  NoUpdate : Bool
  AllowEmptyRequire : Bool
  NoParse : Bool

/-- Embedding of `buildRecordsQueryParams`: builds the query string for
records API endpoints.  The Go `map[string]string` is modelled as an
association list; Go map iteration order is unspecified, insertion order is
one admissible refinement. -/
def buildRecordsQueryParams (params : List (String × String)) : String :=
  if params.length = 0 then ""
  else
    let parts := (params.filter (fun p => p.2 ≠ "")).map (fun p => p.1 ++ "=" ++ p.2)
    if parts.length = 0 then ""
    else "?" ++ String.intercalate "&" parts

/-- The `filter` map of `GetRecordsOptions` as the `GoValue` that
`json.Marshal(options.Filter)` serializes. -/
def filterToGoValue (f : List (String × List GoValue)) : GoValue :=
  GoValue.obj (f.map (fun kv => (kv.1, GoValue.arr kv.2)))

/-- The query-parameter map assembled by `GetRecords` from its options:
`filter` (only when the filter map is non-nil and marshals successfully),
`sort` (when non-empty), `limit` (when positive), `hidden` (when set). -/
def getRecordsParams (options : Option GetRecordsOptions) : List (String × String) :=
  match options with
  | none => []
  | some o =>
      (match o.Filter with
       | some f =>
           match jsonMarshal (filterToGoValue f) with
           | some filterJSON => [("filter", filterJSON)]
           | none => []
       | none => []) ++
      (if o.Sort' ≠ "" then [("sort", o.Sort')] else []) ++
      (if o.Limit > 0 then [("limit", toString o.Limit)] else []) ++
      (if o.Hidden then [("hidden", "true")] else [])

/-- Decode one JSON value as a Go `Record` (struct tags `id` and `fields`);
missing or null members leave the zero value, a type mismatch is an error. -/
def decodeRecord (v : GoValue) : Option Record :=
  match v with
  | GoValue.obj kvs =>
      let idv : Option Int :=
        match kvs.lookup "id" with
        | some (GoValue.num n) => some n
        | some GoValue.null => some 0
        | none => some 0
        | some _ => none
      let fv : Option (List (String × GoValue)) :=
        match kvs.lookup "fields" with
        | some (GoValue.obj fs) => some fs
        | some GoValue.null => some []
        | none => some []
        | some _ => none
      match idv, fv with
      | some i, some f => some ⟨i, f⟩
      | _, _ => none
  | _ => none

/-- Decode a response body as the `\x7brecords: [Record]\x7d` envelope
(`json.Unmarshal` into `RecordsList`). -/
def decodeRecordsList (s : String) : Option RecordsList :=
  match jsonUnmarshal s with
  | some (GoValue.obj kvs) =>
      match kvs.lookup "records" with
      | some (GoValue.arr items) => (items.mapM decodeRecord).map RecordsList.mk
      | some GoValue.null => some ⟨[]⟩
      | none => some ⟨[]⟩
      | some _ => none
  | some _ => none
  | none => none

/-- Decode a response body as the ids-only `\x7brecords: [\x7bid\x7d]\x7d`
envelope (`json.Unmarshal` into `RecordsWithoutFields`). -/
def decodeRecordsWithoutFields (s : String) : Option RecordsWithoutFields :=
  match jsonUnmarshal s with
  | some (GoValue.obj kvs) =>
      match kvs.lookup "records" with
      | some (GoValue.arr items) =>
          (items.mapM (fun item =>
            match item with
            | GoValue.obj fs =>
                match fs.lookup "id" with
                | some (GoValue.num n) => some (⟨n⟩ : RecordIdOnly)
                | some GoValue.null => some ⟨0⟩
                | none => some ⟨0⟩
                | some _ => none
            | _ => none)).map RecordsWithoutFields.mk
      | some GoValue.null => some ⟨[]⟩
      | none => some ⟨[]⟩
      | some _ => none
  | some _ => none
  | none => none

/-- The records endpoint path shared by the four records operations:
`docs/\x7bdocId\x7d/tables/\x7btableId\x7d/records` plus the query
string built from the parameter map. -/
def recordsEndpoint (docId tableId : String) (params : List (String × String)) : String :=
  "docs/" ++ docId ++ "/tables/" ++ tableId ++ "/records" ++ buildRecordsQueryParams params

/-- Embedding of `GetRecords` (GET /docs/.../tables/.../records): builds the
query from the options, issues one GET, decodes the `records` envelope only
on HTTP 200 (a failed decode leaves the zero value, as the ignored
`json.Unmarshal` error does in Go).  Returns (records, status, transport
calls made). -/
def GetRecords (T : Transport) (docId tableId : String)
    (options : Option GetRecordsOptions) : RecordsList × Int × List HttpCall :=
  let url := recordsEndpoint docId tableId (getRecordsParams options)
  let resp := T "GET" url ""
  let records := if resp.2 = 200 then (decodeRecordsList resp.1).getD ⟨[]⟩ else ⟨[]⟩
  (records, resp.2, [⟨"GET", url, ""⟩])

/-- The request body assembled by `AddRecords`: each caller-supplied field
map wrapped into a `\x7bfields: ...\x7d` shape, under a `records` key. -/
def addRecordsBody (records : List (List (String × GoValue))) : GoValue :=
  GoValue.obj [("records",
    GoValue.arr (records.map (fun fields => GoValue.obj [("fields", GoValue.obj fields)])))]

/-- Embedding of `AddRecords` (POST /docs/.../tables/.../records): wraps the
field maps, marshals the body (a failure returns the zero result and -1
without any transport call), POSTs, and decodes the ids-only envelope on
HTTP 200. -/
def AddRecords (T : Transport) (docId tableId : String)
    (records : List (List (String × GoValue))) (options : Option AddRecordsOptions) :
    RecordsWithoutFields × Int × List HttpCall :=
  let params : List (String × String) :=
    match options with
    | some o => if o.NoParse then [("noparse", "true")] else []
    | none => []
  match jsonMarshal (addRecordsBody records) with
  | none => (⟨[]⟩, -1, [])
  | some bodyJSON =>
      let url := recordsEndpoint docId tableId params
      let resp := T "POST" url bodyJSON
      let result := if resp.2 = 200 then (decodeRecordsWithoutFields resp.1).getD ⟨[]⟩ else ⟨[]⟩
      (result, resp.2, [⟨"POST", url, bodyJSON⟩])

/-- A `Record` as the `GoValue` its struct tags (`id,omitempty` and
`fields`) marshal it to: the id is omitted when zero. -/
def recordToGoValue (r : Record) : GoValue :=
  GoValue.obj ((if r.Id = 0 then [] else [("id", GoValue.num r.Id)]) ++
    [("fields", GoValue.obj r.Fields)])

/-- Embedding of `UpdateRecords` (PATCH /docs/.../tables/.../records):
marshals `\x7brecords: [...]\x7d` (a failure returns "" and -1 without any
transport call) and PATCHes; the raw body and status are returned. -/
def UpdateRecords (T : Transport) (docId tableId : String)
    (records : List Record) (options : Option UpdateRecordsOptions) :
    String × Int × List HttpCall :=
  let params : List (String × String) :=
    match options with
    | some o => if o.NoParse then [("noparse", "true")] else []
    | none => []
  match jsonMarshal (GoValue.obj [("records", GoValue.arr (records.map recordToGoValue))]) with
  | none => ("", -1, [])
  | some bodyJSON =>
      let url := recordsEndpoint docId tableId params
      let resp := T "PATCH" url bodyJSON
      (resp.1, resp.2, [⟨"PATCH", url, bodyJSON⟩])

/-- The query-parameter map assembled by `UpsertRecords` from its options:
`onmany` when non-empty, and `noadd`/`noupdate`/`allow_empty_require`/
`noparse` with value "true" when the corresponding flag is set. -/
def upsertParams (options : Option UpsertRecordsOptions) : List (String × String) :=
  match options with
  | none => []
  | some o =>
      (if o.OnMany ≠ "" then [("onmany", o.OnMany)] else []) ++
      (if o.NoAdd then [("noadd", "true")] else []) ++
      (if o.NoUpdate then [("noupdate", "true")] else []) ++
      (if o.AllowEmptyRequire then [("allow_empty_require", "true")] else []) ++
      (if o.NoParse then [("noparse", "true")] else [])

/-- A `RecordWithRequire` as the `GoValue` its struct tags (`require` and
`fields,omitempty`) marshal it to; a nil/empty fields map is omitted. -/
def recordWithRequireToGoValue (r : RecordWithRequire) : GoValue :=
  GoValue.obj ([("require", GoValue.obj r.Require)] ++
    (if r.Fields.isEmpty then [] else [("fields", GoValue.obj r.Fields)]))

/-- Embedding of `UpsertRecords` (PUT /docs/.../tables/.../records):
assembles the five optional query flags, marshals `\x7brecords: [...]\x7d`
(a failure returns "" and -1 without any transport call) and PUTs; the raw
body and status are returned. -/
def UpsertRecords (T : Transport) (docId tableId : String)
    (records : List RecordWithRequire) (options : Option UpsertRecordsOptions) :
    String × Int × List HttpCall :=
  let params := upsertParams options
  match jsonMarshal (GoValue.obj [("records",
      GoValue.arr (records.map recordWithRequireToGoValue))]) with
  | none => ("", -1, [])
  | some bodyJSON =>
      let url := recordsEndpoint docId tableId params
      let resp := T "PUT" url bodyJSON
      (resp.1, resp.2, [⟨"PUT", url, bodyJSON⟩])

/-- Embedding of `DeleteRecords` (POST /docs/.../tables/.../records/delete):
marshals the bare id array (the Go error branch returns "" and -1 without a
transport call, though marshalling an int slice cannot fail) and POSTs. -/
def DeleteRecords (T : Transport) (docId tableId : String)
    (recordIds : List Int) : String × Int × List HttpCall :=
  match jsonMarshal (GoValue.arr (recordIds.map GoValue.num)) with
  | none => ("", -1, [])
  | some bodyJSON =>
      let url := "docs/" ++ docId ++ "/tables/" ++ tableId ++ "/records/delete"
      let resp := T "POST" url bodyJSON
      (resp.1, resp.2, [⟨"POST", url, bodyJSON⟩])

/-- A single operation in a SCIM bulk request (Go struct
`SCIMBulkOperation`); a nil `Data` interface value is `none`. -/
structure SCIMBulkOperation where
  Method : String
  Path : String
  BulkId : String
  Version : String
  Data : Option GoValue
deriving Repr

/-- A SCIM v2 bulk request (Go struct `SCIMBulkRequest`). -/
structure SCIMBulkRequest where
  Schemas : List String
  FailOnErrors : Int
  Operations : List SCIMBulkOperation
deriving Repr

/-- A SCIM v2 error response (Go struct `SCIMError`). -/
structure SCIMError where
  Schemas : List String
  Detail : String
  Status : String
  ScimType : String
deriving Repr, DecidableEq

/-- The dynamically-typed `Response` member of a bulk operation response: Go
stores nothing, a decoded JSON value, the raw body string, or a `SCIMError`
struct in the `interface\x7b\x7d`. -/
inductive SCIMOpResponseBody where
  | empty : SCIMOpResponseBody
  | json (v : GoValue) : SCIMOpResponseBody
  | raw (s : String) : SCIMOpResponseBody
  | scimError (e : SCIMError) : SCIMOpResponseBody
deriving Repr

/-- The response for a single bulk operation (Go struct
`SCIMBulkOperationResponse`). -/
structure SCIMBulkOperationResponse where
  Method : String
  BulkId : String
  Version : String
  Location : String
  Status : String
  Response : SCIMOpResponseBody
deriving Repr

/-- A SCIM v2 bulk response (Go struct `SCIMBulkResponse`). -/
structure SCIMBulkResponse where
  Schemas : List String
  Operations : List SCIMBulkOperationResponse
deriving Repr

/-- The bulk-request schema marker string. -/
def SCIMBulkRequestSchema : String := "urn:ietf:params:scim:api:messages:2.0:BulkRequest"

/-- The bulk-response schema marker string. -/
def SCIMBulkResponseSchema : String := "urn:ietf:params:scim:api:messages:2.0:BulkResponse"

/-- The SCIM error schema marker string. -/
def SCIMErrorSchema : String := "urn:ietf:params:scim:api:messages:2.0:Error"

/-- Model of `fmt.Sprintf("%v", x)` on the decoded JSON values that can sit
in an `interface\x7b\x7d` (Go's sorted map-key order is not reproduced for
object values; no claim exercises it). -/
def goFmtV : GoValue → String
  | GoValue.null => "<nil>"
  | GoValue.bool b => if b then "true" else "false"
  | GoValue.num n => toString n
  | GoValue.str s => s
  | GoValue.arr xs => "[" ++ String.intercalate " " (goFmtVList xs) ++ "]"
  | GoValue.obj kvs => "map[" ++ String.intercalate " " (goFmtVObj kvs) ++ "]"
  | GoValue.unsupported d => d
where
  goFmtVList : List GoValue → List String
    | [] => []
    | x :: xs => goFmtV x :: goFmtVList xs
  goFmtVObj : List (String × GoValue) → List String
    | [] => []
    | (k, v) :: kvs => (k ++ ":" ++ goFmtV v) :: goFmtVObj kvs

/-- The set of methods `executeSCIMOperation` accepts
(POST, PUT, PATCH, DELETE). -/
def validSCIMMethod (m : String) : Bool :=
  m == "POST" || m == "PUT" || m == "PATCH" || m == "DELETE"

/-- A locally-synthesized SCIM error payload with status "400" and the given
detail and scimType. -/
def scimLocal400 (detail scimType : String) : SCIMError :=
  ⟨[SCIMErrorSchema], detail, "400", scimType⟩

/-- The request body `executeSCIMOperation` sends: Go leaves `bodyJSON`
as the nil byte slice (so the empty string) when `op.Data` is nil, and
otherwise marshals it, failing on unserializable data. -/
def scimOpBody : Option GoValue → Option String
  | none => some ""
  | some d => jsonMarshal d

/-- Embedding of `executeSCIMOperation`: validates method and path, marshals
the optional payload, dispatches one transport call via the method-specific
helper, records the status as a string, stores the decoded response body if
JSON-parseable (else the raw string), and synthesizes a `location` URI for
2xx POST/PUT responses carrying an `id` member.  `gristUrl` is the
GRIST_URL environment value.  Also returns the transport calls made. -/
def executeSCIMOperation (T : Transport) (gristUrl : String)
    (op : SCIMBulkOperation) : SCIMBulkOperationResponse × List HttpCall :=
  if ¬ validSCIMMethod op.Method then
    (⟨op.Method, op.BulkId, "", "", "400",
      SCIMOpResponseBody.scimError (scimLocal400 ("Invalid method: " ++ op.Method) "invalidSyntax")⟩, [])
  else if op.Path = "" then
    (⟨op.Method, op.BulkId, "", "", "400",
      SCIMOpResponseBody.scimError (scimLocal400 "Path is required" "invalidSyntax")⟩, [])
  else
    let scimPath := "scim/v2" ++ op.Path
    match scimOpBody op.Data with
    | none =>
        (⟨op.Method, op.BulkId, "", "", "400",
          SCIMOpResponseBody.scimError (scimLocal400 "Invalid request data" "invalidSyntax")⟩, [])
    | some bodyJSON =>
        let resp := T op.Method scimPath bodyJSON
        let respBody := resp.1
        let statusCode := resp.2
        let respParsed : SCIMOpResponseBody :=
          if respBody = "" then SCIMOpResponseBody.empty
          else
            match jsonUnmarshal respBody with
            | some v => SCIMOpResponseBody.json v
            | none => SCIMOpResponseBody.raw respBody
        let location : String :=
          if 200 ≤ statusCode ∧ statusCode < 300 ∧ (op.Method = "POST" ∨ op.Method = "PUT") then
            match respParsed with
            | SCIMOpResponseBody.json (GoValue.obj kvs) =>
                match kvs.lookup "id" with
                | some idv => gristUrl ++ "/api/scim/v2" ++ op.Path ++ "/" ++ goFmtV idv
                | none => ""
            | _ => ""
          else ""
        (⟨op.Method, op.BulkId, "", location, toString statusCode, respParsed⟩,
         [⟨op.Method, scimPath, bodyJSON⟩])

/-- The operation loop of `SCIMBulk`: executes operations in input order,
appends each response, counts responses whose parsed status is at least
400, and breaks once `failOnErrors > 0` and the counter reaches it.
Returns the accumulated responses and the transport calls made. -/
def scimBulkLoop (T : Transport) (gristUrl : String) (failOnErrors : Int) :
    List SCIMBulkOperation → Int → List SCIMBulkOperationResponse × List HttpCall
  | [], _ => ([], [])
  | op :: rest, errorCount =>
      let er := executeSCIMOperation T gristUrl op
      let statusCode := sscanfInt er.1.Status
      if statusCode ≥ 400 then
        if failOnErrors > 0 ∧ errorCount + 1 ≥ failOnErrors then
          ([er.1], er.2)
        else
          let r := scimBulkLoop T gristUrl failOnErrors rest (errorCount + 1)
          (er.1 :: r.1, er.2 ++ r.2)
      else
        let r := scimBulkLoop T gristUrl failOnErrors rest errorCount
        (er.1 :: r.1, er.2 ++ r.2)

/-- Embedding of `SCIMBulk`: rejects an envelope whose `schemas` list lacks
the bulk-request marker with overall status 400 and zero executed
operations; otherwise runs the operation loop and returns the accumulated
responses with overall status 200. -/
def SCIMBulk (T : Transport) (gristUrl : String) (request : SCIMBulkRequest) :
    SCIMBulkResponse × Int × List HttpCall :=
  if request.Schemas.contains SCIMBulkRequestSchema then
    let r := scimBulkLoop T gristUrl request.FailOnErrors request.Operations 0
    (⟨[SCIMBulkResponseSchema], r.1⟩, 200, r.2)
  else
    (⟨[SCIMBulkResponseSchema], []⟩, 400, [])

/-- Decode a JSON value into a Go string field: JSON strings decode, null
leaves the zero value, anything else is a type error. -/
def decodeGoString : Option GoValue → Option String
  | some (GoValue.str s) => some s
  | some GoValue.null => some ""
  | none => some ""
  | some _ => none

/-- Decode a JSON value into a Go `[]string` field: null or absence leaves
the nil slice, a non-array or non-string element is a type error. -/
def decodeGoStringList : Option GoValue → Option (List String)
  | some (GoValue.arr items) => items.mapM (fun it => decodeGoString (some it))
  | some GoValue.null => some []
  | none => some []
  | some _ => none

/-- Decode a JSON value into one `SCIMBulkOperation` (`json.Unmarshal` into
the Go struct): a null element leaves the zero value; `data` decodes into
the `interface\x7b\x7d` member, where JSON null yields the nil interface. -/
def decodeSCIMBulkOperation (v : GoValue) : Option SCIMBulkOperation :=
  match v with
  | GoValue.null => some ⟨"", "", "", "", none⟩
  | GoValue.obj kvs =>
      match decodeGoString (kvs.lookup "method"), decodeGoString (kvs.lookup "path"),
            decodeGoString (kvs.lookup "bulkId"), decodeGoString (kvs.lookup "version") with
      | some m, some p, some b, some ver =>
          let dataVal : Option GoValue :=
            match kvs.lookup "data" with
            | some GoValue.null => none
            | some d => some d
            | none => none
          some ⟨m, p, b, ver, dataVal⟩
      | _, _, _, _ => none
  | _ => none

/-- Model of `json.Unmarshal` of a request body into a `SCIMBulkRequest`:
returns `none` exactly when Go's unmarshal reports an error (syntactically
invalid JSON or a type mismatch); a JSON `null` body leaves the zero
request without error.  Go's case-insensitive field-name fallback is not
modelled. -/
def decodeSCIMBulkRequest (s : String) : Option SCIMBulkRequest :=
  match jsonUnmarshal s with
  | some GoValue.null => some ⟨[], 0, []⟩
  | some (GoValue.obj kvs) =>
      match decodeGoStringList (kvs.lookup "schemas") with
      | none => none
      | some schemas =>
          match (match kvs.lookup "failOnErrors" with
                 | some (GoValue.num n) => some n
                 | some GoValue.null => some 0
                 | none => some 0
                 | some _ => none) with
          | none => none
          | some failOnErrors =>
              match (match kvs.lookup "Operations" with
                     | some (GoValue.arr items) => items.mapM decodeSCIMBulkOperation
                     | some GoValue.null => some []
                     | none => some []
                     | some _ => none) with
              | none => none
              | some ops => some ⟨schemas, failOnErrors, ops⟩
  | some _ => none
  | none => none

/-- The single synthesized error entry `SCIMBulkFromJSON` returns when the
request body does not parse. -/
def scimBulkParseFailureResponse : SCIMBulkResponse :=
  ⟨[SCIMBulkResponseSchema],
   [⟨"", "", "", "", "400",
     SCIMOpResponseBody.scimError
       ⟨[SCIMErrorSchema], "Invalid JSON in request body", "400", "invalidSyntax"⟩⟩]⟩

/-- Embedding of `SCIMBulkFromJSON`: parses the JSON body; on parse failure
returns a single synthesized error operation with overall status 400 and no
transport call; otherwise delegates to `SCIMBulk`. -/
def SCIMBulkFromJSON (T : Transport) (gristUrl : String) (jsonBody : String) :
    SCIMBulkResponse × Int × List HttpCall :=
  match decodeSCIMBulkRequest jsonBody with
  | none => (scimBulkParseFailureResponse, 400, [])
  | some request => SCIMBulk T gristUrl request

/-- The per-operation responses of a loop run are the responses of a prefix
of the input operations, executed in input order, and the transport calls
are those of the same prefix in order. -/
theorem scimBulkLoop_prefix (T : Transport) (u : String) (f : Int)
    (ops : List SCIMBulkOperation) (ec : Int) :
    ∃ k, k ≤ ops.length ∧
      (scimBulkLoop T u f ops ec).1 =
        (ops.take k).map (fun op => (executeSCIMOperation T u op).1) ∧
      (scimBulkLoop T u f ops ec).2 =
        ((ops.take k).map (fun op => (executeSCIMOperation T u op).2)).flatten := by
  induction ops generalizing ec with
  | nil => exact ⟨0, by simp [scimBulkLoop]⟩
  | cons op rest ih =>
      by_cases hst : sscanfInt (executeSCIMOperation T u op).1.Status ≥ 400
      · by_cases hbr : f > 0 ∧ ec + 1 ≥ f
        · refine ⟨1, by simp, ?_, ?_⟩ <;>
            simp [scimBulkLoop, hst, hbr]
        · obtain ⟨k, hk, h1, h2⟩ := ih (ec + 1)
          refine ⟨k + 1, by simpa using Nat.succ_le_succ hk, ?_, ?_⟩ <;>
            simp [scimBulkLoop, hst, hbr, h1, h2]
      · obtain ⟨k, hk, h1, h2⟩ := ih ec
        refine ⟨k + 1, by simpa using Nat.succ_le_succ hk, ?_, ?_⟩ <;>
          simp [scimBulkLoop, hst, h1, h2]

/-- C1: a SCIM bulk request whose schemas list does not contain the
bulk-request marker is rejected whole: `SCIMBulk` returns overall status
400 with an empty Operations list, and no transport call is made. -/
theorem scim_schema_rejection (T : Transport) (u : String) (request : SCIMBulkRequest)
    (h : SCIMBulkRequestSchema ∉ request.Schemas) :
    SCIMBulk T u request = (⟨[SCIMBulkResponseSchema], []⟩, 400, []) := by
  simp [SCIMBulk, h]

/-- Witness for `scim_schema_rejection` at a concrete request whose only
schema entry is the error-schema string. -/
theorem scim_schema_rejection_witness :
    SCIMBulk (fun _ _ _ => ("", 200)) "u"
        ⟨["urn:ietf:params:scim:api:messages:2.0:Error"], 0,
         [⟨"DELETE", "/Users/1", "", "", none⟩]⟩ =
      (⟨[SCIMBulkResponseSchema], []⟩, 400, []) :=
  scim_schema_rejection (fun _ _ _ => ("", 200)) "u" _ (by decide)

/-- C8: a SCIM bulk request whose schemas list contains the bulk-request
marker always yields overall status 200 after the loop exits, however the
individual operations fared; the per-operation outcomes are reported
in-band as the responses of an in-order prefix of the declared
operations. -/
theorem scim_overall_status_200 (T : Transport) (u : String) (request : SCIMBulkRequest)
    (h : SCIMBulkRequestSchema ∈ request.Schemas) :
    (SCIMBulk T u request).2.1 = 200 ∧
    (SCIMBulk T u request).1.Operations =
      (scimBulkLoop T u request.FailOnErrors request.Operations 0).1 ∧
    ∃ k, k ≤ request.Operations.length ∧
      (SCIMBulk T u request).1.Operations =
        (request.Operations.take k).map (fun op => (executeSCIMOperation T u op).1) := by
  refine ⟨by simp [SCIMBulk, h], by simp [SCIMBulk, h], ?_⟩
  obtain ⟨k, hk, h1, _⟩ := scimBulkLoop_prefix T u request.FailOnErrors request.Operations 0
  exact ⟨k, hk, by simp [SCIMBulk, h, h1]⟩

/-- Witness for `scim_overall_status_200`: a request with the marker and a
single operation that fails remotely still yields overall status 200. -/
theorem scim_overall_status_200_witness :
    (SCIMBulk (fun _ _ _ => ("boom", 500)) "u"
        ⟨[SCIMBulkRequestSchema], 0, [⟨"DELETE", "/Users/1", "", "", none⟩]⟩).2.1 = 200 :=
  (scim_overall_status_200 (fun _ _ _ => ("boom", 500)) "u" _ (by decide)).1

/-- The number of responses in a list whose stringified status parses to
400 or more — the quantity `SCIMBulk`'s running error counter tracks. -/
def scimFailTally (resps : List SCIMBulkOperationResponse) : Int :=
  ((resps.filter (fun r => decide (400 ≤ sscanfInt r.Status))).length : Int)

/-- With a positive `failOnErrors` threshold and the error counter below it,
the loop never lets the counter pass the threshold, and stops before
exhausting the operations only when the counter has reached it exactly. -/
theorem scimBulkLoop_earlyStop (T : Transport) (u : String) (f : Int)
    (ops : List SCIMBulkOperation) (ec : Int) (hf : 0 < f) (hec : ec < f) :
    ec + scimFailTally (scimBulkLoop T u f ops ec).1 ≤ f ∧
    ((scimBulkLoop T u f ops ec).1.length < ops.length →
      ec + scimFailTally (scimBulkLoop T u f ops ec).1 = f) := by
  induction ops generalizing ec with
  | nil =>
      refine ⟨?_, ?_⟩ <;> simp [scimBulkLoop, scimFailTally]
      omega
  | cons op rest ih =>
      by_cases hst : sscanfInt (executeSCIMOperation T u op).1.Status ≥ 400
      · by_cases hbr : f > 0 ∧ ec + 1 ≥ f
        · have hstop : ec + 1 = f := by omega
          constructor <;> simp [scimBulkLoop, hst, hbr, scimFailTally] <;> omega
        · have hcont : ec + 1 < f := by omega
          obtain ⟨ihle, iheq⟩ := ih (ec + 1) hcont
          constructor <;>
            simp only [scimBulkLoop, hst, hbr, if_true, if_false, if_pos, if_neg,
              not_false_iff, scimFailTally, List.filter_cons, decide_eq_true_eq,
              List.length_cons] <;>
            simp only [scimFailTally] at ihle iheq <;>
            simp [hst] <;>
            omega
      · obtain ⟨ihle, iheq⟩ := ih ec hec
        constructor <;>
          simp only [scimBulkLoop, hst, if_neg, scimFailTally, List.filter_cons,
            decide_eq_true_eq, List.length_cons] <;>
          simp only [scimFailTally] at ihle iheq <;>
          simp [hst] <;>
          omega

/-- A DELETE bulk operation with the given path and no payload, used by the
concrete early-stop scenario. -/
def scimDeleteOp (p : String) : SCIMBulkOperation := ⟨"DELETE", p, "", "", none⟩

/-- C2: with a positive `failOnErrors` threshold, `SCIMBulk` executes the
declared operations strictly in input order (the reported responses and the
transport calls are those of an in-order prefix), the count of failing
responses never exceeds the threshold, and the loop ends before exhausting
the operations only with the threshold reached exactly; in particular, with
4 operations that all fail remotely and `failOnErrors = 2`, exactly the
first 2 operations are executed and reported, and operations 3 and 4 are
neither executed nor represented. -/
theorem scim_early_stop_threshold (T : Transport) (u : String)
    (request : SCIMBulkRequest) (hm : SCIMBulkRequestSchema ∈ request.Schemas)
    (hf : 0 < request.FailOnErrors) :
    ((∃ k, k ≤ request.Operations.length ∧
        (SCIMBulk T u request).1.Operations =
          (request.Operations.take k).map (fun op => (executeSCIMOperation T u op).1) ∧
        (SCIMBulk T u request).2.2 =
          ((request.Operations.take k).map
            (fun op => (executeSCIMOperation T u op).2)).flatten) ∧
      scimFailTally (SCIMBulk T u request).1.Operations ≤ request.FailOnErrors ∧
      ((SCIMBulk T u request).1.Operations.length < request.Operations.length →
        scimFailTally (SCIMBulk T u request).1.Operations = request.FailOnErrors)) ∧
    (∀ (S : Transport) (v : String), (∀ a r d, S a r d = ("", 500)) →
      SCIMBulk S v ⟨[SCIMBulkRequestSchema], 2,
          [scimDeleteOp "/Users/1", scimDeleteOp "/Users/2",
           scimDeleteOp "/Users/3", scimDeleteOp "/Users/4"]⟩ =
        (⟨[SCIMBulkResponseSchema],
          [⟨"DELETE", "", "", "", "500", SCIMOpResponseBody.empty⟩,
           ⟨"DELETE", "", "", "", "500", SCIMOpResponseBody.empty⟩]⟩, 200,
         [⟨"DELETE", "scim/v2/Users/1", ""⟩, ⟨"DELETE", "scim/v2/Users/2", ""⟩])) := by
  have hS1 : (SCIMBulk T u request).1.Operations =
      (scimBulkLoop T u request.FailOnErrors request.Operations 0).1 := by
    simp [SCIMBulk, hm]
  have hS2 : (SCIMBulk T u request).2.2 =
      (scimBulkLoop T u request.FailOnErrors request.Operations 0).2 := by
    simp [SCIMBulk, hm]
  refine ⟨⟨?_, ?_, ?_⟩, ?_⟩
  · obtain ⟨k, hk, h1, h2⟩ :=
      scimBulkLoop_prefix T u request.FailOnErrors request.Operations 0
    exact ⟨k, hk, by rw [hS1, h1], by rw [hS2, h2]⟩
  · have h := (scimBulkLoop_earlyStop T u request.FailOnErrors request.Operations 0 hf hf).1
    rw [hS1]; omega
  · intro hlt
    rw [hS1] at hlt ⊢
    have h := (scimBulkLoop_earlyStop T u request.FailOnErrors request.Operations 0 hf hf).2 hlt
    omega
  · intro S v hT
    simp +decide [SCIMBulk, scimBulkLoop, executeSCIMOperation, scimDeleteOp, validSCIMMethod,
      scimOpBody, hT, sscanfInt, skipWs, startsWithDigit, leadingDigitsVal]

/-- Witness for `scim_early_stop_threshold`: the 4-failing-operations
scenario itself, with a concrete always-500 transport. -/
theorem scim_early_stop_threshold_witness :
    SCIMBulk (fun _ _ _ => ("", 500)) "u" ⟨[SCIMBulkRequestSchema], 2,
        [scimDeleteOp "/Users/1", scimDeleteOp "/Users/2",
         scimDeleteOp "/Users/3", scimDeleteOp "/Users/4"]⟩ =
      (⟨[SCIMBulkResponseSchema],
        [⟨"DELETE", "", "", "", "500", SCIMOpResponseBody.empty⟩,
         ⟨"DELETE", "", "", "", "500", SCIMOpResponseBody.empty⟩]⟩, 200,
       [⟨"DELETE", "scim/v2/Users/1", ""⟩, ⟨"DELETE", "scim/v2/Users/2", ""⟩]) :=
  (scim_early_stop_threshold (fun _ _ _ => ("", 500)) "u"
      ⟨[SCIMBulkRequestSchema], 2,
        [scimDeleteOp "/Users/1", scimDeleteOp "/Users/2",
         scimDeleteOp "/Users/3", scimDeleteOp "/Users/4"]⟩
      (by decide) (by decide)).2
    (fun _ _ _ => ("", 500)) "u" (fun _ _ _ => rfl)

/-- One unfolding step of the operation loop. -/
theorem scimBulkLoop_cons (T : Transport) (u : String) (f : Int)
    (op : SCIMBulkOperation) (rest : List SCIMBulkOperation) (ec : Int) :
    scimBulkLoop T u f (op :: rest) ec =
      if sscanfInt (executeSCIMOperation T u op).1.Status ≥ 400 then
        if f > 0 ∧ ec + 1 ≥ f then
          ([(executeSCIMOperation T u op).1], (executeSCIMOperation T u op).2)
        else
          ((executeSCIMOperation T u op).1 :: (scimBulkLoop T u f rest (ec + 1)).1,
           (executeSCIMOperation T u op).2 ++ (scimBulkLoop T u f rest (ec + 1)).2)
      else
        ((executeSCIMOperation T u op).1 :: (scimBulkLoop T u f rest ec).1,
         (executeSCIMOperation T u op).2 ++ (scimBulkLoop T u f rest ec).2) := rfl

/-- C3: a bulk operation whose method is outside {POST, PUT, PATCH, DELETE}
is answered locally with per-operation status "400" and a SCIM error of
type "invalidSyntax", with no transport call; an empty path receives the
same local-400 treatment; such an operation increments the running error
counter (the loop continues with counter + 1, or stops if that reaches the
threshold); and the overall `SCIMBulk` status is still 200 whenever the
envelope carries the bulk-request marker. -/
theorem scim_invalid_method_local_400 (T : Transport) (u : String) :
    (∀ op : SCIMBulkOperation, validSCIMMethod op.Method = false →
        executeSCIMOperation T u op =
          (⟨op.Method, op.BulkId, "", "", "400",
            SCIMOpResponseBody.scimError
              (scimLocal400 ("Invalid method: " ++ op.Method) "invalidSyntax")⟩, [])) ∧
    (∀ op : SCIMBulkOperation, validSCIMMethod op.Method = true → op.Path = "" →
        executeSCIMOperation T u op =
          (⟨op.Method, op.BulkId, "", "", "400",
            SCIMOpResponseBody.scimError
              (scimLocal400 "Path is required" "invalidSyntax")⟩, [])) ∧
    (∀ (op : SCIMBulkOperation) (rest : List SCIMBulkOperation) (f ec : Int),
        validSCIMMethod op.Method = false →
        scimBulkLoop T u f (op :: rest) ec =
          if f > 0 ∧ ec + 1 ≥ f then
            ([(executeSCIMOperation T u op).1], [])
          else
            ((executeSCIMOperation T u op).1 :: (scimBulkLoop T u f rest (ec + 1)).1,
             (scimBulkLoop T u f rest (ec + 1)).2)) ∧
    (∀ request : SCIMBulkRequest, SCIMBulkRequestSchema ∈ request.Schemas →
        (SCIMBulk T u request).2.1 = 200) := by
  have hbad : ∀ op : SCIMBulkOperation, validSCIMMethod op.Method = false →
      executeSCIMOperation T u op =
        (⟨op.Method, op.BulkId, "", "", "400",
          SCIMOpResponseBody.scimError
            (scimLocal400 ("Invalid method: " ++ op.Method) "invalidSyntax")⟩, []) := by
    intro op h
    simp [executeSCIMOperation, h]
  refine ⟨hbad, ?_, ?_, ?_⟩
  · intro op hm hp
    simp [executeSCIMOperation, hm, hp]
  · intro op rest f ec h
    rw [scimBulkLoop_cons, hbad op h]
    by_cases hbr : f > 0 ∧ ec + 1 ≥ f
    · simp +decide [hbr]
    · simp +decide [hbr]
  · intro request hm
    simp [SCIMBulk, hm]

/-- Witness for `scim_invalid_method_local_400`: a concrete GET operation
is answered locally, and an envelope containing it still returns 200. -/
theorem scim_invalid_method_local_400_witness :
    executeSCIMOperation (fun _ _ _ => ("", 200)) "u" ⟨"GET", "/Users/1", "b1", "", none⟩ =
      (⟨"GET", "b1", "", "", "400",
        SCIMOpResponseBody.scimError
          (scimLocal400 ("Invalid method: " ++ "GET") "invalidSyntax")⟩, []) ∧
    (SCIMBulk (fun _ _ _ => ("", 200)) "u"
        ⟨[SCIMBulkRequestSchema], 0, [⟨"GET", "/Users/1", "b1", "", none⟩]⟩).2.1 = 200 :=
  ⟨(scim_invalid_method_local_400 (fun _ _ _ => ("", 200)) "u").1
      ⟨"GET", "/Users/1", "b1", "", none⟩ (by decide),
   (scim_invalid_method_local_400 (fun _ _ _ => ("", 200)) "u").2.2.2 _ (by decide)⟩

/-- C10: when the transport fails at the network level with a synthetic
negative status (such as `httpRequest`'s -10), the operation's response
records that status as a string ("-10") after making its one transport
call, but the parsed status is below 400, so the loop neither increments
the error counter nor stops early: an operation list whose statuses all
parse below 400 is always executed in full. -/
theorem scim_negative_status_not_counted (T : Transport) (u : String) :
    (∀ (op : SCIMBulkOperation) (body : String),
        validSCIMMethod op.Method = true → op.Path ≠ "" →
        scimOpBody op.Data = some body →
        (T op.Method ("scim/v2" ++ op.Path) body).2 = -10 →
        (executeSCIMOperation T u op).1.Status = "-10" ∧
        (executeSCIMOperation T u op).2 = [⟨op.Method, "scim/v2" ++ op.Path, body⟩]) ∧
    (∀ (op : SCIMBulkOperation) (rest : List SCIMBulkOperation) (f ec : Int),
        sscanfInt (executeSCIMOperation T u op).1.Status < 400 →
        scimBulkLoop T u f (op :: rest) ec =
          ((executeSCIMOperation T u op).1 :: (scimBulkLoop T u f rest ec).1,
           (executeSCIMOperation T u op).2 ++ (scimBulkLoop T u f rest ec).2)) ∧
    (∀ (ops : List SCIMBulkOperation) (f ec : Int),
        (∀ op ∈ ops, sscanfInt (executeSCIMOperation T u op).1.Status < 400) →
        (scimBulkLoop T u f ops ec).1 =
          ops.map (fun op => (executeSCIMOperation T u op).1)) := by
  have hcons : ∀ (op : SCIMBulkOperation) (rest : List SCIMBulkOperation) (f ec : Int),
      sscanfInt (executeSCIMOperation T u op).1.Status < 400 →
      scimBulkLoop T u f (op :: rest) ec =
        ((executeSCIMOperation T u op).1 :: (scimBulkLoop T u f rest ec).1,
         (executeSCIMOperation T u op).2 ++ (scimBulkLoop T u f rest ec).2) := by
    intro op rest f ec h
    rw [scimBulkLoop_cons, if_neg (by omega)]
  refine ⟨?_, hcons, ?_⟩
  · intro op body hm hp hdata hT
    simp +decide [executeSCIMOperation, hm, hp, hdata, hT]
  · intro ops f ec hall
    induction ops generalizing ec with
    | nil => simp [scimBulkLoop]
    | cons op rest ih =>
        rw [hcons op rest f ec (hall op (by simp))]
        simp only [List.map_cons, List.cons.injEq, true_and]
        exact ih ec (fun o ho => hall o (by simp [ho]))

/-- Witness for `scim_negative_status_not_counted`: with a transport that
always returns -10 and `failOnErrors = 1`, both of two DELETE operations
are executed (no early stop), and the recorded status string is "-10". -/
theorem scim_negative_status_not_counted_witness :
    (executeSCIMOperation (fun _ _ _ => ("err", -10)) "u"
        ⟨"DELETE", "/Users/1", "", "", none⟩).1.Status = "-10" ∧
    (scimBulkLoop (fun _ _ _ => ("err", -10)) "u" 1
        [⟨"DELETE", "/Users/1", "", "", none⟩, ⟨"DELETE", "/Users/2", "", "", none⟩] 0).1 =
      [⟨"DELETE", "/Users/1", "", "", none⟩,
       ⟨"DELETE", "/Users/2", "", "", none⟩].map
        (fun op => (executeSCIMOperation (fun _ _ _ => ("err", -10)) "u" op).1) :=
  ⟨((scim_negative_status_not_counted (fun _ _ _ => ("err", -10)) "u").1
      ⟨"DELETE", "/Users/1", "", "", none⟩ "" (by decide) (by decide) rfl rfl).1,
   (scim_negative_status_not_counted (fun _ _ _ => ("err", -10)) "u").2.2
      [⟨"DELETE", "/Users/1", "", "", none⟩, ⟨"DELETE", "/Users/2", "", "", none⟩] 1 0
      (by decide)⟩

/-- C5: the query builder returns "" when the mapping is empty or every
value is the empty string; otherwise it returns "?" followed by the
key=value pairs of the non-empty-valued entries joined with "&" (entries
with empty values are dropped entirely, never emitted as key=); and on the
single-entry mapping limit=10 it returns exactly "?limit=10". -/
theorem buildRecordsQueryParams_spec :
    (∀ ps : List (String × String), (∀ p ∈ ps, p.2 = "") →
      buildRecordsQueryParams ps = "") ∧
    (∀ ps : List (String × String), (∃ p ∈ ps, p.2 ≠ "") →
      buildRecordsQueryParams ps =
        "?" ++ String.intercalate "&"
          ((ps.filter (fun p => p.2 ≠ "")).map (fun p => p.1 ++ "=" ++ p.2))) ∧
    buildRecordsQueryParams [("limit", "10")] = "?limit=10" := by
  refine ⟨?_, ?_, rfl⟩
  · intro ps h
    by_cases hlen : ps.length = 0
    · simp only [buildRecordsQueryParams]
      rw [if_pos hlen]
    · have hfil : ps.filter (fun p => decide (p.2 ≠ "")) = [] := by
        rw [List.filter_eq_nil_iff]
        intro a ha
        simp [h a ha]
      simp only [buildRecordsQueryParams]
      rw [if_neg hlen, hfil]
      simp
  · intro ps hex
    obtain ⟨p, hp, hne⟩ := hex
    have hlen : ¬ ps.length = 0 := by
      cases ps with
      | nil => cases hp
      | cons a l => simp
    have hmem : p ∈ ps.filter (fun p => decide (p.2 ≠ "")) :=
      List.mem_filter.mpr ⟨hp, by simpa using hne⟩
    have hfil : ¬ ((ps.filter (fun p => decide (p.2 ≠ ""))).map
        (fun p => p.1 ++ "=" ++ p.2)).length = 0 := by
      intro h0
      rw [List.length_map, List.length_eq_zero] at h0
      rw [h0] at hmem
      cases hmem
    simp only [buildRecordsQueryParams]
    rw [if_neg hlen, if_neg hfil]

/-- Witness for `buildRecordsQueryParams_spec`: concrete applications of
the all-empty case and the mixed case from the spec's examples. -/
theorem buildRecordsQueryParams_spec_witness :
    buildRecordsQueryParams [("limit", "")] = "" ∧
    buildRecordsQueryParams [("limit", ""), ("sort", "name")] = "?sort=name" :=
  ⟨buildRecordsQueryParams_spec.1 [("limit", "")] (by decide),
   by
    have h := buildRecordsQueryParams_spec.2.1 [("limit", ""), ("sort", "name")]
      ⟨("sort", "name"), by decide, by decide⟩
    simpa using h⟩

/-- C6: `GetRecords` decodes the response body as a records envelope and
returns it exactly when the transport reports HTTP 200; on any other
status it returns a records list of length 0 paired with that status
verbatim, never decoding the body.  The single GET call is issued either
way. -/
theorem getRecords_status_dispatch (T : Transport) (docId tableId : String)
    (options : Option GetRecordsOptions) (body : String) (status : Int)
    (h : T "GET" (recordsEndpoint docId tableId (getRecordsParams options)) "" = (body, status)) :
    (status ≠ 200 → GetRecords T docId tableId options =
      (⟨[]⟩, status,
       [⟨"GET", recordsEndpoint docId tableId (getRecordsParams options), ""⟩])) ∧
    (status = 200 → GetRecords T docId tableId options =
      ((decodeRecordsList body).getD ⟨[]⟩, 200,
       [⟨"GET", recordsEndpoint docId tableId (getRecordsParams options), ""⟩])) := by
  constructor <;> intro hs <;> simp [GetRecords, h, hs]

/-- Witness for `getRecords_status_dispatch`: a 404 transport yields the
empty records list with status 404, and a 200 transport carrying a
one-record envelope yields that decoded record. -/
theorem getRecords_status_dispatch_witness :
    GetRecords (fun _ _ _ => ("nf", 404)) "d" "t" none =
      (⟨[]⟩, 404, [⟨"GET", "docs/d/tables/t/records", ""⟩]) ∧
    GetRecords (fun _ _ _ =>
        ("\x7b\"records\":[\x7b\"id\":1,\"fields\":\x7b\"name\":\"Alice\"\x7d\x7d]\x7d", 200))
        "d" "t" none =
      ((decodeRecordsList
          "\x7b\"records\":[\x7b\"id\":1,\"fields\":\x7b\"name\":\"Alice\"\x7d\x7d]\x7d").getD ⟨[]⟩,
       200, [⟨"GET", "docs/d/tables/t/records", ""⟩]) :=
  ⟨(getRecords_status_dispatch (fun _ _ _ => ("nf", 404)) "d" "t" none "nf" 404 rfl).1
      (by decide),
   (getRecords_status_dispatch (fun _ _ _ =>
        ("\x7b\"records\":[\x7b\"id\":1,\"fields\":\x7b\"name\":\"Alice\"\x7d\x7d]\x7d", 200))
      "d" "t" none _ 200 rfl).2 rfl⟩

/-- C7: the five upsert option flags are emitted as query parameters only
when truthy/non-empty; with onMany="all" and noAdd/noUpdate/
allowEmptyRequire set, the issued PUT request's query string contains the
four flags with values all/true/true/true (order-independent membership in
its &-separated parts), and with options absent (or all flags
false/empty) no such parameter appears. -/
theorem upsertRecords_query_flags :
    (∀ o : UpsertRecordsOptions,
      ((("onmany", o.OnMany) ∈ upsertParams (some o)) ↔ o.OnMany ≠ "") ∧
      ((("noadd", "true") ∈ upsertParams (some o)) ↔ o.NoAdd = true) ∧
      ((("noupdate", "true") ∈ upsertParams (some o)) ↔ o.NoUpdate = true) ∧
      ((("allow_empty_require", "true") ∈ upsertParams (some o)) ↔
        o.AllowEmptyRequire = true) ∧
      ((("noparse", "true") ∈ upsertParams (some o)) ↔ o.NoParse = true)) ∧
    upsertParams none = [] ∧
    upsertParams (some ⟨"", false, false, false, false⟩) = [] ∧
    (∀ T : Transport,
      (UpsertRecords T "d" "t" [] (some ⟨"all", true, true, true, false⟩)).2.2 =
        [⟨"PUT",
          "docs/d/tables/t/records?onmany=all&noadd=true&noupdate=true&allow_empty_require=true",
          "\x7b\"records\":[]\x7d"⟩]) ∧
    ("onmany=all" ∈ (upsertParams (some ⟨"all", true, true, true, false⟩)).map
        (fun p => p.1 ++ "=" ++ p.2) ∧
     "noadd=true" ∈ (upsertParams (some ⟨"all", true, true, true, false⟩)).map
        (fun p => p.1 ++ "=" ++ p.2) ∧
     "noupdate=true" ∈ (upsertParams (some ⟨"all", true, true, true, false⟩)).map
        (fun p => p.1 ++ "=" ++ p.2) ∧
     "allow_empty_require=true" ∈ (upsertParams (some ⟨"all", true, true, true, false⟩)).map
        (fun p => p.1 ++ "=" ++ p.2)) ∧
    buildRecordsQueryParams (upsertParams (some ⟨"all", true, true, true, false⟩)) =
      "?" ++ String.intercalate "&" ((upsertParams (some ⟨"all", true, true, true, false⟩)).map
        (fun p => p.1 ++ "=" ++ p.2)) ∧
    (∀ (T : Transport) (docId tableId : String) (records : List RecordWithRequire)
        (body : String),
      jsonMarshal (GoValue.obj [("records",
          GoValue.arr (records.map recordWithRequireToGoValue))]) = some body →
      (UpsertRecords T docId tableId records none).2.2 =
        [⟨"PUT", "docs/" ++ docId ++ "/tables/" ++ tableId ++ "/records", body⟩]) := by
  refine ⟨?_, rfl, rfl, fun T => rfl, by decide, rfl, ?_⟩
  · intro o
    obtain ⟨om, na, nu, ar, np⟩ := o
    cases na <;> cases nu <;> cases ar <;> cases np <;>
      by_cases hom : om = "" <;>
      simp +decide [upsertParams, hom]
  · intro T docId tableId records body h
    simp [UpsertRecords, upsertParams, recordsEndpoint, buildRecordsQueryParams, h]

/-- Witness for `upsertRecords_query_flags`: the concrete PUT call issued
with all four flags set, under a concrete transport. -/
theorem upsertRecords_query_flags_witness :
    (UpsertRecords (fun _ _ _ => ("", 200)) "d" "t" []
        (some ⟨"all", true, true, true, false⟩)).2.2 =
      [⟨"PUT",
        "docs/d/tables/t/records?onmany=all&noadd=true&noupdate=true&allow_empty_require=true",
        "\x7b\"records\":[]\x7d"⟩] :=
  upsertRecords_query_flags.2.2.2.1 (fun _ _ _ => ("", 200))

/-- C9: when the request body does not unmarshal into a bulk-request
envelope, `SCIMBulkFromJSON` returns overall status 400 and a response
holding exactly one synthesized error operation entry (status "400" with a
SCIM invalidSyntax error payload), without invoking the bulk executor (no
transport call); when the body parses, it returns exactly `SCIMBulk`
applied to the parsed request. -/
theorem scimBulkFromJSON_dispatch (T : Transport) (u : String) (s : String) :
    (decodeSCIMBulkRequest s = none →
      SCIMBulkFromJSON T u s =
        (⟨[SCIMBulkResponseSchema],
          [⟨"", "", "", "", "400",
            SCIMOpResponseBody.scimError
              ⟨[SCIMErrorSchema], "Invalid JSON in request body", "400", "invalidSyntax"⟩⟩]⟩,
         400, [])) ∧
    (∀ request : SCIMBulkRequest, decodeSCIMBulkRequest s = some request →
      SCIMBulkFromJSON T u s = SCIMBulk T u request) := by
  constructor
  · intro h
    simp [SCIMBulkFromJSON, h, scimBulkParseFailureResponse]
  · intro request h
    simp [SCIMBulkFromJSON, h]

/-- Witness for `scimBulkFromJSON_dispatch`: the unparseable body
"not json" yields the single synthesized 400 entry with no transport
call. -/
theorem scimBulkFromJSON_dispatch_witness :
    SCIMBulkFromJSON (fun _ _ _ => ("", 200)) "u" "not json" =
      (⟨[SCIMBulkResponseSchema],
        [⟨"", "", "", "", "400",
          SCIMOpResponseBody.scimError
            ⟨[SCIMErrorSchema], "Invalid JSON in request body", "400", "invalidSyntax"⟩⟩]⟩,
       400, []) :=
  (scimBulkFromJSON_dispatch (fun _ _ _ => ("", 200)) "u" "not json").1 rfl

/-- Counterexample to C4 as stated: in `GetRecords`, a marshal failure of
the filter option does NOT yield the distinguished -1 status without a
network call; the filter is silently dropped, the GET is still issued, and
the transport's status (here 404) is returned. -/
theorem getRecords_marshal_failure_counterexample :
    jsonMarshal (filterToGoValue [("col", [GoValue.unsupported "func"])]) = none ∧
    (GetRecords (fun _ _ _ => ("nf", 404)) "d" "t"
        (some ⟨some [("col", [GoValue.unsupported "func"])], "", 0, false⟩)).2.1 = 404 ∧
    ¬ (GetRecords (fun _ _ _ => ("nf", 404)) "d" "t"
        (some ⟨some [("col", [GoValue.unsupported "func"])], "", 0, false⟩)).2.1 = -1 ∧
    (GetRecords (fun _ _ _ => ("nf", 404)) "d" "t"
        (some ⟨some [("col", [GoValue.unsupported "func"])], "", 0, false⟩)).2.2 =
      [⟨"GET", "docs/d/tables/t/records", ""⟩] :=
  ⟨rfl, rfl, by decide, rfl⟩

/-- C4 (amended): for add, update, upsert and delete, a request-side JSON
marshal failure yields the distinguished status -1 with an empty/default
result and no transport call; fetch, by contrast, silently drops an
unmarshalable filter option and always issues its single GET, returning
the transport's status. -/
theorem record_ops_request_marshal_failure (T : Transport) (docId tableId : String) :
    (∀ (records : List (List (String × GoValue))) (options : Option AddRecordsOptions),
      jsonMarshal (addRecordsBody records) = none →
      AddRecords T docId tableId records options = (⟨[]⟩, -1, [])) ∧
    (∀ (records : List Record) (options : Option UpdateRecordsOptions),
      jsonMarshal (GoValue.obj [("records", GoValue.arr (records.map recordToGoValue))]) = none →
      UpdateRecords T docId tableId records options = ("", -1, [])) ∧
    (∀ (records : List RecordWithRequire) (options : Option UpsertRecordsOptions),
      jsonMarshal (GoValue.obj [("records",
          GoValue.arr (records.map recordWithRequireToGoValue))]) = none →
      UpsertRecords T docId tableId records options = ("", -1, [])) ∧
    (∀ recordIds : List Int,
      jsonMarshal (GoValue.arr (recordIds.map GoValue.num)) = none →
      DeleteRecords T docId tableId recordIds = ("", -1, [])) ∧
    (∀ options : Option GetRecordsOptions,
      (GetRecords T docId tableId options).2.2 =
        [⟨"GET", recordsEndpoint docId tableId (getRecordsParams options), ""⟩] ∧
      (GetRecords T docId tableId options).2.1 =
        (T "GET" (recordsEndpoint docId tableId (getRecordsParams options)) "").2) := by
  refine ⟨?_, ?_, ?_, ?_, ?_⟩
  · intro records options h
    simp [AddRecords, h]
  · intro records options h
    simp [UpdateRecords, h]
  · intro records options h
    simp [UpsertRecords, h]
  · intro recordIds h
    simp [DeleteRecords, h]
  · intro options
    exact ⟨rfl, rfl⟩

/-- Witness for `record_ops_request_marshal_failure`: an add whose field
map holds an unserializable value returns -1 with no transport call, and a
fetch under a 404 transport still issues its GET. -/
theorem record_ops_request_marshal_failure_witness :
    AddRecords (fun _ _ _ => ("", 200)) "d" "t" [[("x", GoValue.unsupported "func")]] none =
      (⟨[]⟩, -1, []) ∧
    (GetRecords (fun _ _ _ => ("nf", 404)) "d" "t" none).2.2 =
      [⟨"GET", recordsEndpoint "d" "t" (getRecordsParams none), ""⟩] :=
  ⟨(record_ops_request_marshal_failure (fun _ _ _ => ("", 200)) "d" "t").1
      [[("x", GoValue.unsupported "func")]] none rfl,
   ((record_ops_request_marshal_failure (fun _ _ _ => ("nf", 404)) "d" "t").2.2.2.2 none).1⟩
